import Mathlib

/-!
# Verification of the Rain system-information collector

Shallow embedding of the data-collection layer of the `rain` tool
(`src/utils/helpers.py`, `src/core/robust_collector.py`,
`src/core/collector.py`, `src/cli/main.py`) together with proofs of the
specification claims about it.

Ambient host state (subprocess outcomes, psutil enumeration results,
platform name) is modelled as explicit parameters; Python floats are
modelled as exact rationals; Python dicts whose key sets matter are
modelled as association lists with last-write-wins insertion.
-/

namespace Rain

/-! ## Subprocess model and `run_command` (src/utils/helpers.py:10-34)

A call to `subprocess.run` either completes with a return code and the two
output streams, times out (`subprocess.TimeoutExpired`), fails to find the
binary (`FileNotFoundError`), or raises some other OS-level exception. -/

inductive CmdOutcome where
  | completed (returncode : Int) (stdout stderr : String)
  | timedOut
  | notFound
  | otherError (msg : String)
deriving DecidableEq, Repr

/-- Function `run_command` from src/utils/helpers.py:10-34: returns
`(success, stdout, stderr)` and catches every exception class. -/
def run_command : CmdOutcome → Bool × String × String
  | .completed rc out err => (rc == 0, out, err)
  | .timedOut => (false, "", "Command timed out")
  | .notFound => (false, "", "Command not found")
  | .otherError e => (false, "", e)

/-- The ambient mapping from an argv to the outcome of spawning it. -/
def CmdEnv : Type := List String → CmdOutcome

/-! ## `format_uptime` (src/utils/helpers.py:82-107) -/

/-- Function `format_uptime` from src/utils/helpers.py:82-107.  The Python source
takes a float and applies `int()` to each unit count; we model nonnegative
second counts as naturals, for which the arithmetic agrees. -/
def format_uptime (seconds : Nat) : String :=
  let days := seconds / 86400
  let hours := (seconds % 86400) / 3600
  let minutes := (seconds % 3600) / 60
  let parts : List String :=
    (if days > 0 then [toString days ++ " day" ++ (if days != 1 then "s" else "")] else []) ++
    (if hours > 0 then [toString hours ++ " hour" ++ (if hours != 1 then "s" else "")] else []) ++
    (if minutes > 0 then [toString minutes ++ " minute" ++ (if minutes != 1 then "s" else "")] else [])
  if parts.isEmpty then "less than a minute"
  else String.intercalate ", " parts

/-! ## `format_bytes` (src/utils/helpers.py:166-187) -/

/-- Floor of a rational as an integer (`Int.ediv` floors, since the
denominator is positive). -/
def ratFloor (q : ℚ) : Int := q.num.ediv q.den

/-- Python's `f"{size:.1f}"` for a nonnegative value: correct rounding to
one decimal digit with round-half-to-even ties, modelling the float as an
exact rational. -/
def fmtOneDecimal (q : ℚ) : String :=
  let scaled : ℚ := q * 10
  let fl : Int := ratFloor scaled
  let frac : ℚ := scaled - fl
  let r : Int :=
    if frac > 1/2 then fl + 1
    else if frac < 1/2 then fl
    else if fl % 2 = 0 then fl else fl + 1
  toString (r.toNat / 10) ++ "." ++ toString (r.toNat % 10)

def format_bytes_units : List String := ["B", "KB", "MB", "GB", "TB", "PB"]

/-- The `while size >= 1024.0 and i < len(units) - 1` loop of
`format_bytes`, with `fuel = (len(units) - 1) - i` remaining allowed
divisions; returns the final `size` and the number of divisions taken
(the final unit index `i`). -/
def fbLoop : Nat → ℚ → ℚ × Nat
  | 0, size => (size, 0)
  | fuel + 1, size =>
    if 1024 ≤ size then
      let p := fbLoop fuel (size / 1024)
      (p.1, p.2 + 1)
    else (size, 0)

/-- Function `format_bytes` from src/utils/helpers.py:166-187: `abs` of the input,
then repeated division by 1024 while at least 1024 and units remain, then
one-decimal rendering with the selected unit. -/
def format_bytes (bytes_value : Int) : String :=
  if bytes_value = 0 then "0 B"
  else
    let p := fbLoop (format_bytes_units.length - 1) ((bytes_value.natAbs : ℚ))
    fmtOneDecimal p.1 ++ " " ++ format_bytes_units.getD p.2 "B"

/-- Predicate for CPython's int-to-float conversion succeeding: `float(m)`
rounds to nearest (ties to even) and raises `OverflowError` exactly when
`m ≥ 2^1024 - 2^970`, the midpoint above the largest finite double
`2^1024 - 2^971` (the midpoint itself ties to the even, infinite
neighbour). -/
def intFitsFloat (m : Nat) : Bool := m < 2 ^ 1024 - 2 ^ 970

/-- The run of `format_bytes` (src/utils/helpers.py:166-187) including
its error path.  `size` starts as the unbounded int `abs(bytes_value)`;
on the first iteration of the `while size >= 1024.0` loop the statement
`size /= 1024.0` converts it to a float, raising `OverflowError` when the
magnitude does not fit a double (once converted, dividing a finite float
by 1024.0 can never overflow, and the final `f"{size:.1f}"` cannot raise
either, so this is the only error path).  The in-range arithmetic is the
exact-rational `format_bytes` above. -/
def format_bytes_run (bytes_value : Int) : Except String String :=
  if bytes_value = 0 then .ok "0 B"
  else
    let size := bytes_value.natAbs
    if 1024 ≤ size then
      if intFitsFloat size then .ok (format_bytes bytes_value)
      else .error "OverflowError: int too large to convert to float"
    else .ok (format_bytes bytes_value)

/-! ## The Collector (src/core/robust_collector.py:39-62, src/cli/main.py:140-145)

A Python dict whose key set matters is modelled as an association list with
last-write-wins insertion.  A section collector either returns a section
record of type `α` or raises an exception carrying a message. -/

/-- The result stored for a section: a collected record, or the
`{"error": str(e)}` marker substituted when the probe raised. -/
inductive SectionOut (α : Type) where
  | ok (v : α)
  | err (msg : String)
deriving DecidableEq, Repr

/-- Python `d[k]` lookup on the association-list model. -/
def dlookup {β : Type} (k : String) : List (String × β) → Option β
  | [] => none
  | p :: rest => if p.1 = k then some p.2 else dlookup k rest

/-- Python `d[k] = v`: replace in place when the key exists, else append. -/
def dictInsert {β : Type} (d : List (String × β)) (k : String) (v : β) :
    List (String × β) :=
  if (dlookup k d).isSome then d.map (fun p => if p.1 = k then (k, v) else p)
  else d ++ [(k, v)]

/-- The key list of the dict model. -/
def keys {β : Type} (d : List (String × β)) : List String := d.map Prod.fst

/-- The keys of the `section_collectors` dict
(src/core/robust_collector.py:43-51). -/
def validSections : List String :=
  ["system", "hardware", "network", "processes", "security", "sensors", "python"]

/-- The fixed list the CLI substitutes for `"all"`
(src/cli/main.py:142-145). -/
def all_sections : List String :=
  ["system", "hardware", "network", "processes", "security", "sensors", "python"]

/-- The `"all"` pseudo-section expansion performed by the CLI entry point
(src/cli/main.py:140-145). -/
def expand_all (sections : List String) : List String :=
  if "all" ∈ sections then all_sections else sections

/-- The value stored for one section: the collector's record on success,
`{"error": str(e)}` when it raised (robust_collector.py:55-60). -/
def sectionOutcome {α : Type} (collectors : String → Except String α)
    (s : String) : SectionOut α :=
  match collectors s with
  | .ok v => .ok v
  | .error e => .err e

/-- One iteration of the `for section in sections` loop of
`collect_all_data` (robust_collector.py:53-60): unknown names are skipped
silently. -/
def collectStep {α : Type} (collectors : String → Except String α)
    (data : List (String × SectionOut α)) (s : String) :
    List (String × SectionOut α) :=
  if s ∈ validSections then dictInsert data s (sectionOutcome collectors s)
  else data

/-- Function `collect_all_data` from src/core/robust_collector.py:39-62, with the
per-section probes abstracted as an ambient `collectors` map. -/
def collect_all_data {α : Type} (collectors : String → Except String α)
    (sections : List String) : List (String × SectionOut α) :=
  sections.foldl (collectStep collectors) []

/-! ### Dict lemmas -/

lemma keys_map_replace {β : Type} (d : List (String × β)) (k : String) (v : β) :
    keys (d.map (fun p => if p.1 = k then (k, v) else p)) = keys d := by
  induction d with
  | nil => rfl
  | cons p rest ih =>
    by_cases h : p.1 = k <;> simp [keys, h] <;> simpa [keys] using ih

lemma keys_cons {β : Type} (p : String × β) (rest : List (String × β)) :
    keys (p :: rest) = p.1 :: keys rest := rfl

lemma dlookup_isSome_iff {β : Type} (d : List (String × β)) (k : String) :
    (dlookup k d).isSome = true ↔ k ∈ keys d := by
  induction d with
  | nil => simp [dlookup, keys]
  | cons p rest ih =>
    rw [keys_cons, List.mem_cons]
    by_cases h : p.1 = k
    · simp [dlookup, h]
    · simp only [dlookup, if_neg h, ih]
      constructor
      · exact Or.inr
      · rintro (e | hm)
        · exact absurd e.symm h
        · exact hm

lemma dlookup_map_replace_ne {β : Type} (k k' : String) (v : β)
    (hne : ¬ k' = k) (d : List (String × β)) :
    dlookup k' (d.map (fun p => if p.1 = k then (k, v) else p)) =
      dlookup k' d := by
  induction d with
  | nil => rfl
  | cons p rest ih =>
    by_cases hp : p.1 = k
    · have : ¬ k = k' := fun e => hne e.symm
      simp [dlookup, hp, ih, this]
    · simp [dlookup, hp, ih]

lemma dlookup_map_replace_eq {β : Type} (k : String) (v : β)
    (d : List (String × β)) (hk : k ∈ keys d) :
    dlookup k (d.map (fun p => if p.1 = k then (k, v) else p)) = some v := by
  induction d with
  | nil => simp [keys] at hk
  | cons p rest ih =>
    by_cases hp : p.1 = k
    · simp [dlookup, hp]
    · rw [keys_cons, List.mem_cons] at hk
      rcases hk with e | hm
      · exact absurd e.symm hp
      · simp [dlookup, hp, ih hm]

lemma dlookup_append_not_mem {β : Type} (k k' : String) (v : β) :
    ∀ (d : List (String × β)), k ∉ keys d →
      dlookup k' (d ++ [(k, v)]) = if k' = k then some v else dlookup k' d := by
  intro d
  induction d with
  | nil =>
    intro _
    by_cases hk : k' = k
    · simp [dlookup, hk]
    · have : ¬ k = k' := fun e => hk e.symm
      simp [dlookup, hk, this]
  | cons p rest ih =>
    intro hmem
    rw [keys_cons, List.mem_cons] at hmem
    push_neg at hmem
    show dlookup k' ((p :: rest) ++ [(k, v)]) = _
    by_cases hpk : p.1 = k'
    · have hne : ¬ k' = k := fun e => hmem.1 ((e ▸ hpk : p.1 = k)).symm
      simp [dlookup, hpk, hne]
    · by_cases hk : k' = k
      · subst hk
        simp [dlookup, hpk, ih hmem.2]
      · simp [dlookup, hpk, hk, ih hmem.2]

lemma mem_keys_dictInsert {β : Type} (d : List (String × β)) (k k' : String)
    (v : β) : k' ∈ keys (dictInsert d k v) ↔ k' ∈ keys d ∨ k' = k := by
  unfold dictInsert
  split
  · rw [keys_map_replace]
    have hk : k ∈ keys d := (dlookup_isSome_iff d k).mp (by assumption)
    constructor
    · exact Or.inl
    · rintro (h | rfl) <;> [exact h; exact hk]
  · simp [keys]

lemma dlookup_dictInsert {β : Type} (d : List (String × β)) (k k' : String)
    (v : β) :
    dlookup k' (dictInsert d k v) = if k' = k then some v else dlookup k' d := by
  unfold dictInsert
  split
  · next h =>
    have hk : k ∈ keys d := (dlookup_isSome_iff d k).mp h
    by_cases hk' : k' = k
    · subst hk'
      rw [if_pos rfl, dlookup_map_replace_eq k' v d hk]
    · rw [if_neg hk', dlookup_map_replace_ne k k' v hk' d]
  · next h =>
    have hk : k ∉ keys d := fun hm => h ((dlookup_isSome_iff d k).mpr hm)
    exact dlookup_append_not_mem k k' v d hk

/-! ### Collector fold lemmas -/

lemma mem_keys_collect_fold {α : Type} (c : String → Except String α) :
    ∀ (S : List String) (d : List (String × SectionOut α)) (k : String),
      k ∈ keys (S.foldl (collectStep c) d) ↔
        k ∈ keys d ∨ (k ∈ S ∧ k ∈ validSections) := by
  intro S
  induction S with
  | nil => simp
  | cons s rest ih =>
    intro d k
    simp only [List.foldl_cons]
    rw [ih]
    unfold collectStep
    split
    · rw [mem_keys_dictInsert]
      constructor
      · rintro ((h | rfl) | ⟨h1, h2⟩)
        · exact Or.inl h
        · exact Or.inr ⟨List.mem_cons_self _ _, by assumption⟩
        · exact Or.inr ⟨List.mem_cons_of_mem _ h1, h2⟩
      · rintro (h | ⟨h1, h2⟩)
        · exact Or.inl (Or.inl h)
        · rcases List.mem_cons.mp h1 with rfl | h1
          · exact Or.inl (Or.inr rfl)
          · exact Or.inr ⟨h1, h2⟩
    · constructor
      · rintro (h | ⟨h1, h2⟩)
        · exact Or.inl h
        · exact Or.inr ⟨List.mem_cons_of_mem _ h1, h2⟩
      · rintro (h | ⟨h1, h2⟩)
        · exact Or.inl h
        · rcases List.mem_cons.mp h1 with rfl | h1
          · exact absurd h2 (by assumption)
          · exact Or.inr ⟨h1, h2⟩

lemma dlookup_collect_fold_not_mem {α : Type} (c : String → Except String α) :
    ∀ (S : List String) (d : List (String × SectionOut α)) (k : String),
      k ∉ S → dlookup k (S.foldl (collectStep c) d) = dlookup k d := by
  intro S
  induction S with
  | nil => simp
  | cons s rest ih =>
    intro d k hk
    simp only [List.foldl_cons]
    rw [ih _ _ (fun h => hk (List.mem_cons_of_mem _ h))]
    have hks : ¬ k = s := fun h => hk (by rw [h]; exact List.mem_cons_self s rest)
    unfold collectStep
    split
    · rw [dlookup_dictInsert, if_neg hks]
    · rfl

lemma dlookup_collect_fold_mem {α : Type} (c : String → Except String α) :
    ∀ (S : List String) (d : List (String × SectionOut α)) (k : String),
      k ∈ S → k ∈ validSections →
      dlookup k (S.foldl (collectStep c) d) = some (sectionOutcome c k) := by
  intro S
  induction S with
  | nil => simp
  | cons s rest ih =>
    intro d k hk hv
    simp only [List.foldl_cons]
    by_cases hr : k ∈ rest
    · exact ih _ _ hr hv
    · rcases List.mem_cons.mp hk with rfl | hk'
      · rw [dlookup_collect_fold_not_mem c rest _ _ hr]
        unfold collectStep
        rw [if_pos hv, dlookup_dictInsert, if_pos rfl]
      · exact absurd hk' hr

/-! ## Theorems about the Collector -/

/-- C1: after expanding the `"all"` pseudo-section, `collect_all_data`
returns a mapping whose keys are exactly the requested valid section
names: in general a key appears iff it is requested and valid (so unknown
names contribute no key and raise no error — the function is total by
construction), and when every requested name is valid or `"all"`, the key
set of the result equals exactly the expanded request. -/
theorem collect_all_data_keys {α : Type} (collectors : String → Except String α)
    (S : List String) (k : String) :
    (k ∈ keys (collect_all_data collectors (expand_all S)) ↔
      k ∈ expand_all S ∧ k ∈ validSections) ∧
    ((∀ s ∈ S, s ∈ validSections ∨ s = "all") →
      (k ∈ keys (collect_all_data collectors (expand_all S)) ↔ k ∈ expand_all S)) := by
  have hgen : k ∈ keys (collect_all_data collectors (expand_all S)) ↔
      k ∈ expand_all S ∧ k ∈ validSections := by
    unfold collect_all_data
    rw [mem_keys_collect_fold]
    simp [keys]
  refine ⟨hgen, fun hS => ?_⟩
  rw [hgen]
  constructor
  · exact And.left
  · intro hk
    refine ⟨hk, ?_⟩
    unfold expand_all at hk
    split at hk
    · exact hk
    · next hall =>
      rcases hS k hk with hv | rfl
      · exact hv
      · exact absurd hk hall

/-- Concrete collectors map used by the Collector witnesses: the
`network` probe raises, every other probe returns a record. -/
def demoCollectors : String → Except String Nat :=
  fun s => if s = "network" then .error "boom" else .ok 0

/-- Witness for C1: requesting `["all"]` yields the key `"system"` (the
hypothesis that every requested name is valid or `"all"` is discharged
concretely). -/
theorem collect_all_data_keys_witness :
    "system" ∈ keys (collect_all_data demoCollectors (expand_all ["all"])) :=
  ((collect_all_data_keys demoCollectors ["all"] "system").2
    (by decide)).mpr (by decide)

/-- C2: when the probe for a requested valid section raises with message
`msg`, `collect_all_data` maps that section's key to the
`{"error": msg}` marker, and every other requested valid section still
receives a recorded result: one failure never aborts the collection or
removes a key. -/
theorem collect_all_data_isolates_failures {α : Type}
    (collectors : String → Except String α) (S : List String)
    (s : String) (msg : String)
    (hs : s ∈ S) (hv : s ∈ validSections)
    (hf : collectors s = .error msg) :
    dlookup s (collect_all_data collectors S) = some (.err msg) ∧
    ∀ t, t ∈ S → t ∈ validSections →
      ∃ v, dlookup t (collect_all_data collectors S) = some v := by
  constructor
  · unfold collect_all_data
    rw [dlookup_collect_fold_mem collectors S [] s hs hv]
    unfold sectionOutcome
    rw [hf]
  · intro t ht htv
    exact ⟨_, dlookup_collect_fold_mem collectors S [] t ht htv⟩

/-- Witness for C2: with the `network` probe raising `"boom"`, collecting
`["system", "network"]` records the error marker under `"network"` and
still records a result for `"system"`. -/
theorem collect_all_data_isolates_failures_witness :
    dlookup "network" (collect_all_data demoCollectors ["system", "network"]) =
      some (.err "boom") ∧
    ∃ v, dlookup "system" (collect_all_data demoCollectors ["system", "network"]) =
      some v :=
  ⟨(collect_all_data_isolates_failures demoCollectors ["system", "network"]
      "network" "boom" (by decide) (by decide) rfl).1,
   (collect_all_data_isolates_failures demoCollectors ["system", "network"]
      "network" "boom" (by decide) (by decide) rfl).2 "system" (by decide) (by decide)⟩

/-! ## Disk sub-probe (src/core/robust_collector.py:216-242) -/

structure DiskPartition where
  device : String
  mountpoint : String
  fstype : String
deriving DecidableEq, Repr

structure DiskUsage where
  total : Nat
  used : Nat
  free : Nat
deriving DecidableEq, Repr

structure DiskRecord where
  device : String
  mountpoint : String
  fstype : String
  total : Nat
  used : Nat
  free : Nat
  percent : ℚ
deriving DecidableEq, Repr

/-- The record built for one partition (robust_collector.py:225-233):
`percent = (used / total) * 100 if total > 0 else 0`. -/
def mkDiskRecord (p : DiskPartition) (usage : DiskUsage) : DiskRecord :=
  { device := p.device, mountpoint := p.mountpoint, fstype := p.fstype,
    total := usage.total, used := usage.used, free := usage.free,
    percent :=
      if usage.total > 0 then ((usage.used : ℚ) / (usage.total : ℚ)) * 100
      else 0 }

/-- Function `_get_disk_info` (robust_collector.py:216-242): each partition comes
with the outcome of its `disk_usage` call; a `PermissionError`/`OSError`
skips the partition, and an exception from the enumeration itself merely
truncates the ambient input list. -/
def _get_disk_info (parts : List (DiskPartition × Except String DiskUsage)) :
    List DiskRecord :=
  parts.foldl
    (fun disks pu =>
      match pu.2 with
      | .ok usage => disks ++ [mkDiskRecord pu.1 usage]
      | .error _ => disks) []

lemma mem_disk_fold (parts : List (DiskPartition × Except String DiskUsage)) :
    ∀ (acc : List DiskRecord) (d : DiskRecord),
      d ∈ parts.foldl
        (fun disks pu =>
          match pu.2 with
          | .ok usage => disks ++ [mkDiskRecord pu.1 usage]
          | .error _ => disks) acc →
      d ∈ acc ∨ ∃ p usage, d = mkDiskRecord p usage := by
  induction parts with
  | nil => exact fun acc d hd => Or.inl hd
  | cons pu rest ih =>
    intro acc d hd
    simp only [List.foldl_cons] at hd
    rcases pu with ⟨p, u⟩
    cases u with
    | ok usage =>
      rcases ih _ _ hd with hacc | hex
      · rcases List.mem_append.mp hacc with h | h
        · exact Or.inl h
        · exact Or.inr ⟨p, usage, (List.mem_singleton.mp h)⟩
      · exact Or.inr hex
    | error e => exact ih _ _ hd

/-! ## Process probe (src/core/robust_collector.py:471-504, src/core/config.py) -/

/-- The configuration fields consulted by the collector
(src/core/config.py). -/
structure Config where
  max_processes : Nat := 1000
  network_timeout : Nat := 5
deriving DecidableEq, Repr

/-- Expression `self.config.max_processes if self.config else 100`
(robust_collector.py:475). -/
def configMaxProcesses : Option Config → Nat
  | some c => c.max_processes
  | none => 100

/-- One entry of `psutil.process_iter([...])` as fetched by the probe. -/
structure ProcInfo where
  pid : Int
  name : String
  username : String
  status : String
  cpu_percent : Option ℚ
  memory_percent : Option ℚ
  create_time : Option ℚ
deriving DecidableEq, Repr

/-- The `create_time` field after the probe's conversion: untouched when
falsy (`None` or `0`), else replaced by the ISO-rendered string. -/
inductive CreateTime where
  | raw (t : Option ℚ)
  | iso (s : String)
deriving DecidableEq, Repr

structure ProcEntry where
  pid : Int
  name : String
  username : String
  status : String
  cpu_percent : Option ℚ
  memory_percent : Option ℚ
  create_time : CreateTime
deriving DecidableEq, Repr

/-- Conversion `if process_info['create_time']: ... .isoformat()`
(robust_collector.py:483-484); the datetime rendering is ambient,
abstracted as `iso`. -/
def convertCreateTime (iso : ℚ → String) (p : ProcInfo) : ProcEntry :=
  { pid := p.pid, name := p.name, username := p.username, status := p.status,
    cpu_percent := p.cpu_percent, memory_percent := p.memory_percent,
    create_time :=
      match p.create_time with
      | some t => if t = 0 then .raw (some t) else .iso (iso t)
      | none => .raw none }

/-- The sort key `x.get('cpu_percent') or 0` (robust_collector.py:491):
`None` is replaced by `0` (and a stored `0` stays `0`). -/
def procKey (p : ProcEntry) : ℚ := p.cpu_percent.getD 0

/-- Comparison realizing `sort(key=..., reverse=True)`: descending by
`procKey`. -/
def procLE (a b : ProcEntry) : Bool := decide (procKey b ≤ procKey a)

structure ProcSummary where
  running : Nat
  sleeping : Nat
  zombie : Nat
deriving DecidableEq, Repr

structure ProcessSection where
  count : Nat
  processes : List ProcEntry
  summary : ProcSummary
deriving DecidableEq, Repr

/-- Function `collect_process_info` (robust_collector.py:471-504).  The ambient
enumeration yields, for each process, either its info dict or `none` when
`NoSuchProcess`/`AccessDenied` is raised (the entry is skipped but still
counts toward the `i >= max_processes` break). -/
def collect_process_info (iso : ℚ → String) (config : Option Config)
    (iterated : List (Option ProcInfo)) : ProcessSection :=
  let max_processes := configMaxProcesses config
  let collected := (iterated.take max_processes).filterMap
    (fun o => o.map (convertCreateTime iso))
  let processes := collected.mergeSort procLE
  { count := processes.length,
    processes := processes,
    summary :=
      { running := (processes.filter (fun p => p.status = "running")).length,
        sleeping := (processes.filter (fun p => p.status = "sleeping")).length,
        zombie := (processes.filter (fun p => p.status = "zombie")).length } }

/-! ## Theorems about the probes -/

/-- C3: the process list holds at most `max_processes` entries (the
configured maximum, 100 when no config is given) and is sorted in
descending order of `cpu_percent` with a null value ordered as 0; ties
are left unordered. -/
theorem process_list_truncated_sorted (iso : ℚ → String) (config : Option Config)
    (iterated : List (Option ProcInfo)) :
    (collect_process_info iso config iterated).processes.length ≤
      configMaxProcesses config ∧
    (collect_process_info iso config iterated).processes.Pairwise
      (fun a b => procKey b ≤ procKey a) := by
  constructor
  · show (((iterated.take (configMaxProcesses config)).filterMap
      (fun o => o.map (convertCreateTime iso))).mergeSort procLE).length ≤ _
    rw [List.length_mergeSort]
    calc ((iterated.take (configMaxProcesses config)).filterMap
            (fun o => o.map (convertCreateTime iso))).length
        ≤ (iterated.take (configMaxProcesses config)).length :=
          List.length_filterMap_le _ _
      _ ≤ configMaxProcesses config := by
          rw [List.length_take]; exact Nat.min_le_left _ _
  · have h := @List.sorted_mergeSort ProcEntry procLE
      (fun a b c hab hbc => by
        simp only [procLE, decide_eq_true_eq] at *
        exact le_trans hbc hab)
      (fun a b => by
        simp only [procLE, Bool.or_eq_true, decide_eq_true_eq]
        exact le_total (procKey b) (procKey a))
      ((iterated.take (configMaxProcesses config)).filterMap
        (fun o => o.map (convertCreateTime iso)))
    exact h.imp (fun hab => by simpa [procLE, decide_eq_true_eq] using hab)

/-- C4: every disk record has `percent = 0` when its total is 0 (the
division is guarded, so no division-by-zero error or NaN), and
`percent = used / total * 100` when the total is positive. -/
theorem disk_percent_guard (parts : List (DiskPartition × Except String DiskUsage))
    (d : DiskRecord) (hd : d ∈ _get_disk_info parts) :
    (d.total = 0 → d.percent = 0) ∧
    (0 < d.total → d.percent = ((d.used : ℚ) / (d.total : ℚ)) * 100) := by
  rcases (mem_disk_fold parts [] d hd).resolve_left (by simp) with ⟨p, usage, rfl⟩
  unfold mkDiskRecord
  constructor
  · intro h0
    simp only at h0 ⊢
    rw [if_neg (by omega)]
  · intro hpos
    simp only at hpos ⊢
    rw [if_pos hpos]

/-- A partition whose filesystem reports 0 total bytes. -/
def demoParts : List (DiskPartition × Except String DiskUsage) :=
  [(⟨"/dev/sda1", "/", "ext4"⟩, .ok ⟨0, 0, 0⟩)]

/-- Witness for C4: the zero-total partition's record has `percent = 0`. -/
theorem disk_percent_guard_witness :
    (mkDiskRecord ⟨"/dev/sda1", "/", "ext4"⟩ ⟨0, 0, 0⟩).percent = 0 :=
  (disk_percent_guard demoParts (mkDiskRecord ⟨"/dev/sda1", "/", "ext4"⟩ ⟨0, 0, 0⟩)
    (by decide)).1 (by decide)

/-! ## Firewall sub-probe (src/core/robust_collector.py:514-536 and
src/core/collector.py:630-681) -/

/-- Python's substring test `pat in s` (for a nonempty pattern). -/
def strContains (s pat : String) : Bool := (s.splitOn pat).length != 1

def ufw_cmd : List String := ["ufw", "status"]

def iptables_cmd : List String := ["iptables", "-L", "-n"]

def pfctl_cmd : List String := ["pfctl", "-s", "info"]

structure FirewallInfo where
  status : String
  details : String
deriving DecidableEq, Repr

/-- Function `_get_firewall_status` of the robust collector
(robust_collector.py:514-536): on Linux only `ufw` is probed, on macOS
only `pfctl`; a failed probe leaves the `"unknown"` default. -/
def robust_get_firewall_status (plat : String) (env : CmdEnv) : FirewallInfo :=
  let firewall_info : FirewallInfo :=
    { status := "unknown", details := "Unable to determine" }
  if plat = "Linux" then
    let r := run_command (env ufw_cmd)
    if r.1 then
      { status := if strContains r.2.1.toLower "active" then "active" else "inactive",
        details := "ufw detected" }
    else firewall_info
  else if plat = "Darwin" then
    let r := run_command (env pfctl_cmd)
    if r.1 then
      { status := if strContains r.2.1.toLower "enabled" then "active" else "inactive",
        details := "pfctl detected" }
    else firewall_info
  else firewall_info

structure FirewallInfoL where
  status : String
  details : List (String × String)
deriving DecidableEq, Repr

/-- The `ufw` probe of the legacy collector (collector.py:634-650): a
missing binary is caught in place and the next probe runs; a timeout or
other error escapes to the outer handler, which returns the record built
so far (the `Bool` is the continue flag). -/
def legacy_ufw_step (env : CmdEnv) (info : FirewallInfoL) : FirewallInfoL × Bool :=
  match env ufw_cmd with
  | .completed rc out _ =>
    (if rc == 0 then
      { status := if strContains out.toLower "active" then "active" else "inactive",
        details := dictInsert info.details "ufw" out.trim }
     else info, true)
  | .notFound => (info, true)
  | .timedOut => (info, false)
  | .otherError _ => (info, false)

/-- The `iptables` probe of the legacy collector (collector.py:652-663):
it can only add a detail entry, never touch `status`. -/
def legacy_iptables_step (env : CmdEnv) (info : FirewallInfoL) :
    FirewallInfoL × Bool :=
  match env iptables_cmd with
  | .completed rc _ _ =>
    (if rc == 0 then
      { info with details := dictInsert info.details "iptables" "configured" }
     else info, true)
  | .notFound => (info, true)
  | .timedOut => (info, false)
  | .otherError _ => (info, false)

/-- The `pfctl` probe of the legacy collector (collector.py:665-677). -/
def legacy_pfctl_step (env : CmdEnv) (info : FirewallInfoL) :
    FirewallInfoL × Bool :=
  match env pfctl_cmd with
  | .completed rc out _ =>
    (if rc == 0 then
      { status := if strContains out.toLower "enabled" then "active" else "inactive",
        details := dictInsert info.details "pfctl" out.trim }
     else info, true)
  | .notFound => (info, true)
  | .timedOut => (info, false)
  | .otherError _ => (info, false)

/-- Function `_get_firewall_status` of the legacy collector (collector.py:630-681):
on Linux both `ufw` and `iptables` are probed in order. -/
def legacy_get_firewall_status (plat : String) (env : CmdEnv) : FirewallInfoL :=
  let info : FirewallInfoL := { status := "unknown", details := [] }
  if plat = "Linux" then
    let r := legacy_ufw_step env info
    if r.2 then (legacy_iptables_step env r.1).1 else r.1
  else if plat = "Darwin" then
    (legacy_pfctl_step env info).1
  else info

/-! ## Security probe (src/core/robust_collector.py:506-563) -/

structure NetAddr where
  ip : String
  port : Nat
deriving DecidableEq, Repr

structure NetConn where
  status : String
  laddr : Option NetAddr
deriving DecidableEq, Repr

/-- Constant `psutil.CONN_LISTEN`. -/
def CONN_LISTEN : String := "LISTEN"

/-- One iteration of the connection loop of `_get_open_ports`
(robust_collector.py:543-545): ports of listening connections with a
bound local address are accumulated into a set. -/
def openPortsStep (s : Finset Nat) (c : NetConn) : Finset Nat :=
  if c.status = CONN_LISTEN then
    match c.laddr with
    | some a => insert a.port s
    | none => s
  else s

/-- Function `_get_open_ports` (robust_collector.py:538-549): the ambient
connection list holds the connections yielded before any exception (an
`AccessDenied` mid-iteration just truncates it); the set is then sorted
into a list. -/
def _get_open_ports (conns : List NetConn) : List Nat :=
  (conns.foldl openPortsStep ∅).sort (· ≤ ·)

def net_session_cmd : List String := ["net", "session"]

def sudo_cmd : List String := ["sudo", "-n", "true"]

/-- The privilege-probe command chosen by `_check_admin_privileges`. -/
def priv_cmd (plat : String) : List String :=
  if plat = "Windows" then net_session_cmd else sudo_cmd

/-- Function `_check_admin_privileges` (robust_collector.py:551-563): the `success`
component of the platform-specific probe command. -/
def _check_admin_privileges (plat : String) (env : CmdEnv) : Bool :=
  if plat = "Windows" then (run_command (env net_session_cmd)).1
  else (run_command (env sudo_cmd)).1

/-- The value under one key of the security record. -/
inductive SecValue where
  | fw (f : FirewallInfo)
  | ports (l : List Nat)
  | admin (b : Bool)
deriving DecidableEq, Repr

/-- Function `collect_security_info` (robust_collector.py:506-512): unlike the
other section probes it wraps nothing in a `CollectionError` path — each
sub-probe swallows its own failures, so the record below is always
produced. -/
def collect_security_info (plat : String) (env : CmdEnv)
    (conns : List NetConn) : List (String × SecValue) :=
  [("firewall", .fw (robust_get_firewall_status plat env)),
   ("open_ports", .ports (_get_open_ports conns)),
   ("admin_privileges", .admin (_check_admin_privileges plat env))]

lemma mem_openPortsStep (s : Finset Nat) (c : NetConn) (q : Nat) :
    q ∈ openPortsStep s c ↔
      q ∈ s ∨ (c.status = CONN_LISTEN ∧ ∃ a, c.laddr = some a ∧ a.port = q) := by
  unfold openPortsStep
  by_cases hs : c.status = CONN_LISTEN
  · rw [if_pos hs]
    cases hl : c.laddr with
    | none => simp [hl]
    | some a =>
      simp only [Finset.mem_insert, hl, Option.some_inj]
      constructor
      · rintro (rfl | hq)
        · exact Or.inr ⟨hs, a, rfl, rfl⟩
        · exact Or.inl hq
      · rintro (hq | ⟨_, a', rfl, rfl⟩)
        · exact Or.inr hq
        · exact Or.inl rfl
  · simp [hs]

lemma mem_open_ports_fold :
    ∀ (conns : List NetConn) (s : Finset Nat) (q : Nat),
      q ∈ conns.foldl openPortsStep s ↔
        q ∈ s ∨ ∃ c ∈ conns, c.status = CONN_LISTEN ∧
          ∃ a, c.laddr = some a ∧ a.port = q := by
  intro conns
  induction conns with
  | nil => simp
  | cons c rest ih =>
    intro s q
    simp only [List.foldl_cons]
    rw [ih, mem_openPortsStep]
    constructor
    · rintro ((hq | hc) | ⟨c', hc', h⟩)
      · exact Or.inl hq
      · exact Or.inr ⟨c, List.mem_cons_self _ _, hc⟩
      · exact Or.inr ⟨c', List.mem_cons_of_mem _ hc', h⟩
    · rintro (hq | ⟨c', hc', h⟩)
      · exact Or.inl (Or.inl hq)
      · rcases List.mem_cons.mp hc' with rfl | hc'
        · exact Or.inl (Or.inr h)
        · exact Or.inr ⟨c', hc', h⟩

/-! ## Theorems about the firewall and security probes -/

/-- C6: whenever every probed firewall tool's command fails, the returned
record's status is `"unknown"` — for the robust collector (which probes
`ufw` on Linux, `pfctl` on macOS) and for the legacy collector (which
probes `ufw` then `iptables` on Linux, `pfctl` on macOS) alike. -/
theorem firewall_unknown_when_tools_absent (env : CmdEnv) :
    ((run_command (env ufw_cmd)).1 = false →
      (robust_get_firewall_status "Linux" env).status = "unknown") ∧
    ((run_command (env ufw_cmd)).1 = false →
     (run_command (env iptables_cmd)).1 = false →
      (legacy_get_firewall_status "Linux" env).status = "unknown") ∧
    ((run_command (env pfctl_cmd)).1 = false →
      (robust_get_firewall_status "Darwin" env).status = "unknown" ∧
      (legacy_get_firewall_status "Darwin" env).status = "unknown") := by
  refine ⟨fun h1 => ?_, fun h1 h2 => ?_, fun h3 => ⟨?_, ?_⟩⟩
  · cases henv : env ufw_cmd <;>
      simp_all [robust_get_firewall_status, run_command]
  · cases henv : env ufw_cmd <;> cases henv2 : env iptables_cmd <;>
      simp_all [legacy_get_firewall_status, legacy_ufw_step,
        legacy_iptables_step, run_command]
  · cases henv : env pfctl_cmd <;>
      simp_all [robust_get_firewall_status, run_command]
  · cases henv : env pfctl_cmd <;>
      simp_all [legacy_get_firewall_status, legacy_pfctl_step, run_command]

/-- Witness for C6: in an environment where no binary exists, both
collectors report `"unknown"` on both platforms. -/
theorem firewall_unknown_witness :
    (robust_get_firewall_status "Linux" (fun _ => .notFound)).status = "unknown" ∧
    (legacy_get_firewall_status "Linux" (fun _ => .notFound)).status = "unknown" ∧
    (robust_get_firewall_status "Darwin" (fun _ => .notFound)).status = "unknown" ∧
    (legacy_get_firewall_status "Darwin" (fun _ => .notFound)).status = "unknown" :=
  ⟨(firewall_unknown_when_tools_absent (fun _ => .notFound)).1 rfl,
   (firewall_unknown_when_tools_absent (fun _ => .notFound)).2.1 rfl rfl,
   ((firewall_unknown_when_tools_absent (fun _ => .notFound)).2.2 rfl).1,
   ((firewall_unknown_when_tools_absent (fun _ => .notFound)).2.2 rfl).2⟩

/-- C9: `collect_security_info` is total by construction and returns a
record with exactly the keys `firewall`, `open_ports`,
`admin_privileges`; `open_ports` is a duplicate-free ascending list
containing exactly the local ports of listening-state connections; and
`admin_privileges` is `false` whenever the privilege-probe command fails
for any reason. -/
theorem collect_security_info_spec (plat : String) (env : CmdEnv)
    (conns : List NetConn) :
    keys (collect_security_info plat env conns) =
      ["firewall", "open_ports", "admin_privileges"] ∧
    (_get_open_ports conns).Sorted (· ≤ ·) ∧
    (_get_open_ports conns).Nodup ∧
    (∀ q, q ∈ _get_open_ports conns ↔
      ∃ c ∈ conns, c.status = CONN_LISTEN ∧ ∃ a, c.laddr = some a ∧ a.port = q) ∧
    ((run_command (env (priv_cmd plat))).1 = false →
      _check_admin_privileges plat env = false) := by
  refine ⟨rfl, Finset.sort_sorted _ _, Finset.sort_nodup _ _, fun q => ?_, fun h => ?_⟩
  · unfold _get_open_ports
    rw [Finset.mem_sort, mem_open_ports_fold]
    simp
  · by_cases hw : plat = "Windows" <;>
      simp_all [_check_admin_privileges, priv_cmd]

/-- Listening and established connections used by the C9 witness. -/
def demoConns : List NetConn :=
  [⟨"LISTEN", some ⟨"0.0.0.0", 22⟩⟩,
   ⟨"ESTABLISHED", some ⟨"10.0.0.2", 80⟩⟩,
   ⟨"LISTEN", some ⟨"::", 22⟩⟩]

/-- Witness for C9: with every subprocess missing, the privilege check is
`false`, and port 22 is reported open for `demoConns`. -/
theorem collect_security_info_spec_witness :
    _check_admin_privileges "Linux" (fun _ => .notFound) = false ∧
    (22 ∈ _get_open_ports demoConns) :=
  ⟨(collect_security_info_spec "Linux" (fun _ => .notFound) demoConns).2.2.2.2 rfl,
   ((collect_security_info_spec "Linux" (fun _ => .notFound) demoConns).2.2.2.1 22).mpr
     ⟨⟨"LISTEN", some ⟨"0.0.0.0", 22⟩⟩, by decide, rfl, ⟨"0.0.0.0", 22⟩, rfl, rfl⟩⟩

/-! ## Theorems about the helpers -/

/-- C5: `run_command` never raises and always returns a triple: on timeout
`(False, "", "Command timed out")`; on a missing binary
`(False, "", "Command not found")`; on any other OS-level failure
`(False, "", <message>)`; and `success` is `True` exactly when the command
ran and exited with return code 0.  (Totality is by construction: the
function is defined on every `CmdOutcome`.) -/
theorem run_command_spec :
    (∀ rc out err, run_command (.completed rc out err) = (rc == 0, out, err)) ∧
    run_command .timedOut = (false, "", "Command timed out") ∧
    run_command .notFound = (false, "", "Command not found") ∧
    (∀ m, run_command (.otherError m) = (false, "", m)) ∧
    (∀ o, (run_command o).1 = true ↔ ∃ out err, o = .completed 0 out err) := by
  refine ⟨fun _ _ _ => rfl, rfl, rfl, fun _ => rfl, fun o => ?_⟩
  cases o <;> simp [run_command]

/-- C7: `format_uptime` renders day/hour/minute units joined by commas,
omitting zero units: `format_uptime 0 = "less than a minute"`,
`format_uptime 90` contains `"minute"`, `format_uptime 3700` contains
`"hour"`, `format_uptime 90000` contains `"day"`, and whenever the day,
hour and minute components are all zero the result is exactly
`"less than a minute"`. -/
theorem format_uptime_spec :
    format_uptime 0 = "less than a minute" ∧
    (∃ a b, format_uptime 90 = a ++ "minute" ++ b) ∧
    (∃ a b, format_uptime 3700 = a ++ "hour" ++ b) ∧
    (∃ a b, format_uptime 90000 = a ++ "day" ++ b) ∧
    (∀ s : Nat, s / 86400 = 0 → s % 86400 / 3600 = 0 → s % 3600 / 60 = 0 →
      format_uptime s = "less than a minute") := by
  refine ⟨rfl, ⟨"1 ", "", by decide⟩, ⟨"1 ", ", 1 minute", by decide⟩,
    ⟨"1 ", ", 1 hour", by decide⟩, fun s h1 h2 h3 => ?_⟩
  simp [format_uptime, h1, h2, h3]

/-- Witness for C7: at 30 seconds all three unit components are zero and
the rendering is the sentinel phrase. -/
theorem format_uptime_spec_witness : format_uptime 30 = "less than a minute" :=
  format_uptime_spec.2.2.2.2 30 (by decide) (by decide) (by decide)

/-- C8: `format_bytes` renders byte counts on a binary-1024 ladder with
one decimal: `0 ↦ "0 B"`, `1024 ↦ "1.0 KB"`, `1048576 ↦ "1.0 MB"`,
`1073741824 ↦ "1.0 GB"`. -/
theorem format_bytes_spec :
    format_bytes 0 = "0 B" ∧
    format_bytes 1024 = "1.0 KB" ∧
    format_bytes 1048576 = "1.0 MB" ∧
    format_bytes 1073741824 = "1.0 GB" := by
  refine ⟨rfl, ?_, ?_, ?_⟩ <;>
    · norm_num [format_bytes, fbLoop, fmtOneDecimal, ratFloor, format_bytes_units]
      rfl

/-- Helper for C10: the in-range rendering depends only on the magnitude,
since `abs` is applied right after the zero test and `-n = 0` iff `n = 0`. -/
lemma format_bytes_abs_symm (n : Int) : format_bytes (-n) = format_bytes n := by
  unfold format_bytes
  simp [neg_eq_zero, Int.natAbs_neg]

set_option maxRecDepth 16384 in
/-- Counterexample for C10: `format_bytes` does NOT return for every
integer input — at `2^1100` the first `size /= 1024.0` iteration raises
`OverflowError` converting the unbounded int to a float, so the claim's
"never raises for any integer input" is false of the program. -/
theorem format_bytes_overflow_counterexample :
    format_bytes_run (2 ^ 1100) =
      .error "OverflowError: int too large to convert to float" := by
  have h0 : ((2 : Int) ^ 1100) ≠ 0 := by positivity
  have habs : ((2 : Int) ^ 1100).natAbs = 2 ^ 1100 := by
    rw [Int.natAbs_pow]
    rfl
  have hge : (1024 : Nat) ≤ 2 ^ 1100 :=
    calc (1024 : Nat) = 2 ^ 10 := by norm_num
      _ ≤ 2 ^ 1100 := Nat.pow_le_pow_right (by norm_num) (by norm_num)
  have hbig : ¬ intFitsFloat ((2 : Nat) ^ 1100) = true := by
    unfold intFitsFloat
    simp only [decide_eq_true_eq, not_lt]
    calc 2 ^ 1024 - 2 ^ 970 ≤ (2 : Nat) ^ 1024 := Nat.sub_le _ _
      _ ≤ 2 ^ 1100 := Nat.pow_le_pow_right (by norm_num) (by norm_num)
  unfold format_bytes_run
  rw [if_neg h0]
  simp only [habs]
  rw [if_pos hge, if_neg hbig]

/-- C10 (amended): `format_bytes` is insensitive to sign in the strong
sense that the runs at `n` and `-n` behave identically — same string or
same raised error (the magnitude is taken with `abs` before formatting,
and the overflow condition depends only on the magnitude); and it returns
normally (raising nothing) whenever the magnitude fits a float, i.e. for
every `|n| < 2^1024 - 2^970` — but not for every integer. -/
theorem format_bytes_run_neg (n : Int) :
    format_bytes_run (-n) = format_bytes_run n ∧
    (intFitsFloat n.natAbs = true → ∃ s, format_bytes_run n = .ok s) := by
  constructor
  · unfold format_bytes_run
    simp only [neg_eq_zero, Int.natAbs_neg, format_bytes_abs_symm]
  · intro h
    unfold format_bytes_run
    by_cases h0 : n = 0
    · rw [if_pos h0]
      exact ⟨_, rfl⟩
    · rw [if_neg h0]
      by_cases h1 : 1024 ≤ n.natAbs
      · rw [if_pos h1, if_pos h]
        exact ⟨_, rfl⟩
      · rw [if_neg h1]
        exact ⟨_, rfl⟩

/-- Witness for C10 (amended): at 1536 the sign-symmetry is concrete and
the magnitude fits a float, so the run returns normally. -/
theorem format_bytes_run_neg_witness :
    format_bytes_run (-1536) = format_bytes_run 1536 ∧
    ∃ s, format_bytes_run 1536 = .ok s :=
  ⟨(format_bytes_run_neg 1536).1,
   (format_bytes_run_neg 1536).2 (by norm_num [intFitsFloat])⟩

end Rain
